import Mathlib

/-!
Verification of the dataviews operation module (`dataviews/operation.py`):
the `ViewOperation` stack dispatch framework, the per-layer numeric
operations (RGBA composition, HCS, Colorize, channel split, contour
extraction, sampling) and the dimensional collapse algorithm
(`curve_collapse`).

The embedding is shallow: numeric arrays are nested lists of rationals
(`numpy` arrays are rectangular; rectangularity appears as explicit
well-formedness hypotheses where a result depends on it), Python
exceptions are `Except String`, ordered dictionaries are association
lists in insertion order, and the non-fatal warnings of `param` are
collected in a list alongside a result.
-/

set_option linter.unusedVariables false

deriving instance DecidableEq for Except

namespace DataViews

/-! ## Basic data -/

/-- Mode tag of a view (`"cmap"`, `"rgb"`, `"rgba"`, ...). -/
inductive Mode where
  | cmap
  | rgb
  | rgba
  | hsv
  | otherMode (s : String)
  deriving DecidableEq, Repr

/-- A bounding region; `lbrt()` returns the four coordinates. -/
structure Bounds where
  l : ℚ
  b : ℚ
  r : ℚ
  t : ℚ
  deriving DecidableEq, Repr

/-- Opaque metadata dictionary. -/
def Metadata := List (String × String)
deriving DecidableEq, Repr, Inhabited

/-- A stack key: one coordinate per named dimension of the stack. -/
def Key := List ℚ
deriving DecidableEq, Repr, Inhabited

/-- A named stack dimension: name, cyclic flag and declared numeric range. -/
structure Dimension where
  name : String
  cyclic : Bool
  range : ℚ × ℚ
  deriving DecidableEq, Repr

/-! ## Numeric arrays

A view's `data` is a numpy array of depth 1 (two axes) or depth 3/4
(three axes, the third being the channel axis). -/

/-- A two- or three-dimensional numeric array. -/
inductive Arr where
  | d2 (a : List (List ℚ))
  | d3 (a : List (List (List ℚ)))
  deriving DecidableEq, Repr

/-- `SheetView.depth`: `1` for a two-axis array, the channel count
(third axis extent) for a three-axis array. -/
def arrDepth : Arr → ℕ
  | .d2 _ => 1
  | .d3 a => ((a.headD []).headD []).length

/-- The `shape` attribute of an array. -/
def arrShape : Arr → List ℕ
  | .d2 a => [a.length, (a.headD []).length]
  | .d3 a => [a.length, (a.headD []).length, ((a.headD []).headD []).length]

/-- All scalar entries of an array, flattened. -/
def arrValues : Arr → List ℚ
  | .d2 a => a.flatten
  | .d3 a => (a.map List.flatten).flatten

/-- View a depth-one array as its two-axis matrix (the three-axis case is
unreachable on the paths that use this: every caller has checked
`depth == 1` first, which forces the two-axis form). -/
def asArr2 : Arr → List (List ℚ)
  | .d2 a => a
  | .d3 a => a.map (fun row => row.map (fun px => px.headD 0))

/-- `data.max()` of a flattened value list (numpy raises on an empty
array; the claims only evaluate this on non-empty data). -/
def listMaxQ (l : List ℚ) : ℚ := l.foldl max (l.headD 0)

/-- `data.min()` of a flattened value list. -/
def listMinQ (l : List ℚ) : ℚ := l.foldl min (l.headD 0)

/-- Elementwise `clip(0.0, 1.0)` of a two-axis array, returning a new
array (as `ndarray.clip` does). -/
def clip01 (a : List (List ℚ)) : List (List ℚ) :=
  a.map (fun row => row.map (fun x => min 1 (max 0 x)))

/-- Elementwise multiplication by a scalar gain. -/
def arrScale (a : List (List ℚ)) (c : ℚ) : List (List ℚ) :=
  a.map (fun row => row.map (fun x => x * c))

/-- `np.ones(...)` with the shape of the given two-axis array. -/
def onesLike (a : List (List ℚ)) : List (List ℚ) :=
  a.map (fun row => row.map (fun _ => 1))

/-- Channel slice `data[:,:,c]` of a three-axis array. -/
def sliceChannel (a : List (List (List ℚ))) (c : ℕ) : List (List ℚ) :=
  a.map (fun row => row.map (fun px => px.getD c 0))

/-- Inner loop of `dstack`: `r0` drives the column count, `rows` holds
the current row of every channel; each step collects the heads of all
channel rows into one pixel. -/
def dstackPixel : List ℚ → List (List ℚ) → List (List ℚ)
  | [], _ => []
  | _ :: xrest, rows => rows.map (fun r => r.headD 0) :: dstackPixel xrest (rows.map (fun r => r.tail))

/-- Outer loop of `dstack`: `r0` drives the row count, `cs` holds the
remaining rows of every channel. -/
def dstackRows : List (List ℚ) → List (List (List ℚ)) → List (List (List ℚ))
  | [], _ => []
  | r0 :: rrest, cs =>
    dstackPixel r0 (cs.map (fun ch => ch.headD [])) :: dstackRows rrest (cs.map (fun ch => ch.tail))

/-- `np.dstack`: stack equal-shaped two-axis arrays along a new third
axis; `(dstack chans)[i][j][k] = chans[k][i][j]`.  The shape of the
result is read off the first channel, matching numpy on the equal-shape
inputs that reach it (numpy rejects unequal shapes). -/
def dstack (chans : List (List (List ℚ))) : List (List (List ℚ)) :=
  match chans with
  | [] => []
  | c0 :: _ => dstackRows c0 chans

/-! ## List helpers -/

/-- Core of `OrderedDict.fromkeys`: keep the first occurrence of each
element, in first-seen order.  `seen` accumulates the elements already
emitted. -/
def firstDedupGo [DecidableEq α] (seen : List α) : List α → List α
  | [] => []
  | a :: l => if a ∈ seen then firstDedupGo seen l else a :: firstDedupGo (a :: seen) l

/-- `list(OrderedDict.fromkeys(xs))`: deduplicate keeping first
occurrences in order. -/
def firstDedup [DecidableEq α] (l : List α) : List α := firstDedupGo [] l

/-- First-match lookup in an association list (`dict` lookup; keys are
unique in every dict the source builds). -/
def assocLookup [DecidableEq κ] (l : List (κ × ν)) (k : κ) : Option ν :=
  match l with
  | [] => none
  | p :: rest => if p.1 = k then some p.2 else assocLookup rest k

/-- `dict` assignment `d[k] = v`: overwrite the first matching key in
place, else append at the end (insertion order preserved). -/
def assocUpdate [DecidableEq κ] (l : List (κ × ν)) (k : κ) (v : ν) : List (κ × ν) :=
  match l with
  | [] => [(k, v)]
  | p :: rest => if p.1 = k then (k, v) :: rest else p :: assocUpdate rest k v

/-- `Except.isOk` as a boolean. -/
def isOkB : Except ε γ → Bool
  | .ok _ => true
  | .error _ => false

/-- Python `str.capitalize`: first character upper-cased, the rest
lower-cased. -/
def pyCapitalize (s : String) : String :=
  match s.toList with
  | [] => ""
  | c :: rest => String.mk (c.toUpper :: rest.map Char.toLower)

/-- Python `str.title`: upper-case every letter that follows a
non-letter, lower-case the others. -/
def pyTitle (s : String) : String :=
  String.mk ((s.toList.foldl
    (fun acc c =>
      (acc.1 ++ [if c.isAlpha then (if acc.2 then c.toLower else c.toUpper) else c],
       c.isAlpha))
    ([], false)).1)

/-! ## Views

`SheetView`, `SheetOverlay` and `Table` come from the external view
library; only the attributes the operation module reads are modelled. -/

/-- Modelled from the spec: the external view library keeps a view's
depth consistent with its mode (depth 1 is a scalar/cmap view, depth 3
rgb, depth 4 rgba).  Used for the mode of views the operations construct
themselves. -/
def modeFor (a : Arr) : Mode :=
  match arrDepth a with
  | 1 => .cmap
  | 3 => .rgb
  | 4 => .rgba
  | _ => .otherMode "unknown"

/-- A single array-backed view: array data, bounding region, label,
optional region-of-interest bounds, mode tag and optional cyclic range. -/
structure SheetView where
  data : Arr
  bounds : Bounds
  label : String
  roi_bounds : Option Bounds := none
  mode : Mode := modeFor data
  cyclic_range : Option ℚ := none
  deriving DecidableEq, Repr

/-- `SheetView.depth`. -/
def SheetView.depth (v : SheetView) : ℕ := arrDepth v.data

/-- `SheetView.shape`. -/
def SheetView.shape (v : SheetView) : List ℕ := arrShape v.data

/-- Modelled from the spec: `SheetView.N`, the cyclic-normalized
representation of a view — data divided by the declared cyclic range
when one is present, otherwise unchanged; shape-preserving either way. -/
def Nview (v : SheetView) : SheetView :=
  match v.cyclic_range with
  | some r => { v with data := .d2 ((asArr2 v.data).map (fun row => row.map (fun x => x / r))), cyclic_range := none }
  | none => v

/-- An overlay of views sharing a bounding region (`SheetOverlay`);
`data` is the ordered layer list. -/
structure SOverlay where
  data : List SheetView
  bounds : Bounds
  roi_bounds : Option Bounds := none
  deriving DecidableEq, Repr

/-- `overlay[i]`: indexed access; raises `IndexError` out of range. -/
def ovGet (ov : SOverlay) (i : ℕ) : Except String SheetView :=
  match ov.data.get? i with
  | some v => .ok v
  | none => .error "IndexError: list index out of range"

/-- A `Table`: ordered mapping from sample heading to a scalar value. -/
structure Table where
  data : List (String × ℚ)
  label : String
  metadata : Metadata := []
  deriving DecidableEq, Repr

instance : Inhabited Table := ⟨⟨[], "", []⟩⟩

/-- `table[heading]` (`KeyError` when absent). -/
def tableGet (t : Table) (h : String) : Except String ℚ :=
  match assocLookup t.data h with
  | some v => .ok v
  | none => .error ("KeyError: " ++ h)

/-! ## Dispatch framework (`ViewOperation.__call__` on a `Stack`)

The framework is generic in the entry type of the input stack and the
view type produced by `_process`; it only inspects produced views
through their fundamental category (which entry of `stack_mapping` the
view's type is a subclass of). -/

/-- Fundamental category of a produced view: which key of
`stack_mapping = {SheetLayer: SheetStack, DataLayer: DataStack,
Table: TableStack}` its type is a subclass of, with the grid containers
(`CoordinateGrid`, `DataGrid`) and unknown types kept apart. -/
inductive ViewCat where
  | sheetLayer
  | dataLayer
  | tableCat
  | coordinateGrid
  | dataGrid
  | unknownCat
  deriving DecidableEq, Repr

instance : Inhabited ViewCat := ⟨.sheetLayer⟩

/-- The fundamental stack types (values of `stack_mapping`). -/
inductive StackTy where
  | sheetStack
  | dataStack
  | tableStack
  deriving DecidableEq, Repr

/-- One view's contribution to the signature (`_get_signature` inner
loop): the grid containers fail fast as not-yet-implemented; a type
that is no `stack_mapping` key raises `IndexError` on the empty
first-match list. -/
def catToStackTy : ViewCat → Except String StackTy
  | .coordinateGrid => .error "CoordinateGrid and DataGrid not supported yet"
  | .dataGrid => .error "CoordinateGrid and DataGrid not supported yet"
  | .sheetLayer => .ok .sheetStack
  | .dataLayer => .ok .dataStack
  | .tableCat => .ok .tableStack
  | .unknownCat => .error "IndexError: list index out of range"

/-- The container-category signature of one `_process` output list. -/
def viewSig (cat : β → ViewCat) : List β → Except String (List StackTy)
  | [] => .ok []
  | v :: rest =>
    match catToStackTy (cat v) with
    | .error e => .error e
    | .ok s =>
      match viewSig cat rest with
      | .error e => .error e
      | .ok others => .ok (s :: others)

/-- The `_get_signature` loop over all per-entry output lists: the first
list fixes the signature, every later list must match it exactly. -/
def signatureLoop (cat : β → ViewCat) (acc : Option (List StackTy)) :
    List (List β) → Except String (Option (List StackTy))
  | [] => .ok acc
  | vs :: rest =>
    match viewSig cat vs with
    | .error e => .error e
    | .ok s =>
      match acc with
      | none => signatureLoop cat (some s) rest
      | some s0 =>
        if s0 ≠ s then .error "The ViewOperation is returning inconsistent types."
        else signatureLoop cat (some s0) rest

/-- `ViewOperation._get_signature`: `None` when the stack had no
entries. -/
def getSignature (cat : β → ViewCat) (lists : List (List β)) :
    Except String (Option (List StackTy)) :=
  signatureLoop cat none lists

/-- An input stack: ordered entries plus dimension list and metadata. -/
structure InStack (α : Type) where
  entries : List (Key × α)
  dimensions : List Dimension
  metadata : Metadata
  deriving DecidableEq, Repr

/-- A freshly built output stack of the inferred container type
(`stack_tp(dimensions=view.dimensions, metadata=view.metadata)`), filled
by keyed insertion.  `title` keeps the external stack class's default. -/
structure OutStack (β : Type) where
  stype : StackTy
  dimensions : List Dimension
  metadata : Metadata
  entries : List (Key × β)
  title : String := ""
  deriving DecidableEq, Repr

/-- `stacks[ind][k] = v`: keyed insertion into one output stack. -/
def stackInsertKey (s : OutStack β) (k : Key) (v : β) : OutStack β :=
  { s with entries := assocUpdate s.entries k v }

/-- The inner loop `for ind, v in enumerate(views): stacks[ind][k] = v`;
`IndexError` when an entry produced more views than there are output stacks. -/
def insertEntryViews (sts : List (OutStack β)) (k : Key) :
    List β → Except String (List (OutStack β))
  | [] => .ok sts
  | v :: vrest =>
    match sts with
    | [] => .error "IndexError: list index out of range"
    | s :: srest =>
      match insertEntryViews srest k vrest with
      | .error e => .error e
      | .ok tail => .ok (stackInsertKey s k v :: tail)

/-- The outer loop `for k, views in mapped_items: ...`. -/
def fillStacks (sts : List (OutStack β)) :
    List (Key × List β) → Except String (List (OutStack β))
  | [] => .ok sts
  | (k, vs) :: rest =>
    match insertEntryViews sts k vs with
    | .error e => .error e
    | .ok st2 => fillStacks st2 rest

/-- `mapped_items = [(k, self._process(el)) for k, el in view.items()]`:
an exception from any entry aborts the whole comprehension. -/
def processEntries (process : α → Except String (List β)) :
    List (Key × α) → Except String (List (Key × List β))
  | [] => .ok []
  | kv :: rest =>
    match process kv.2 with
    | .error e => .error e
    | .ok vs =>
      match processEntries process rest with
      | .error e => .error e
      | .ok others => .ok ((kv.1, vs) :: others)

/-- Result of calling a `ViewOperation` on a stack: a single output
stack, or a `GridLayout` of the output stacks. -/
inductive CallResult (β : Type) where
  | single (s : OutStack β)
  | grid (ss : List (OutStack β))
  deriving DecidableEq, Repr

/-- `ViewOperation.__call__` on a `Stack` (lines 107-122): process every
entry in key order, infer and check the signature, build one fresh
output stack per output position carrying the input's dimensions and
metadata, insert each entry's outputs at the entry's key, and return the
single stack or a grid layout.  An empty stack leaves the signature
`None`, which the list comprehension over it then fails to iterate. -/
def viewOpCallStack (cat : β → ViewCat) (process : α → Except String (List β))
    (stack : InStack α) : Except String (CallResult β) :=
  match processEntries process stack.entries with
  | .error e => .error e
  | .ok mapped =>
    match getSignature cat (mapped.map (fun q => q.2)) with
    | .error e => .error e
    | .ok none => .error "TypeError: NoneType object is not iterable"
    | .ok (some sig) =>
      let sts := sig.map (fun tp =>
        ({ stype := tp, dimensions := stack.dimensions,
           metadata := stack.metadata, entries := [] } : OutStack β))
      match fillStacks sts mapped with
      | .error e => .error e
      | .ok filled =>
        match filled with
        | [s] => .ok (.single s)
        | ss => .ok (.grid ss)

/-- The output stacks the spec describes: per output position `i` of the
common signature, a fresh stack of that container type carrying the
input stack's dimension list and metadata, holding for every input entry
`(k, _)` the `i`-th produced view at the same key `k`, in key order. -/
def specOutputStacks [Inhabited β] (dims : List Dimension) (md : Metadata)
    (sig : List StackTy) (mapped : List (Key × List β)) : List (OutStack β) :=
  sig.enum.map (fun itp =>
    { stype := itp.2, dimensions := dims, metadata := md,
      entries := mapped.map (fun p => (p.1, p.2.getD itp.1 default)) })

/-! ## `ViewOperation.get_views` -/

/-- A view as `get_views` sees it: a label plus whatever the
`isinstance(match, view_type)` filter needs, abstracted as the
caller-chosen boolean filter below. -/
structure LabeledView where
  label : String
  cat : ViewCat
  deriving DecidableEq, Repr

/-- The possible arguments of `get_views`: an `Overlay` (its `data` is
the layer list), a bare `SheetView`, or any other view object (a
`Stack`, `Table`, `Curve`, ...), for which neither `isinstance` branch
binds `matches`. -/
inductive GetViewsInput where
  | overlayIn (data : List LabeledView)
  | sheetViewIn (v : LabeledView)
  | otherIn (kind : String)
  deriving DecidableEq, Repr

/-- `ViewOperation.get_views` (lines 58-70): label-suffix filtering then
the `view_type` filter (`tyF` stands for `isinstance(·, view_type)`).
On any input that is neither an `Overlay` nor a `SheetView` the local
`matches` is never assigned and the final comprehension raises
`UnboundLocalError`. -/
def getViews (inp : GetViewsInput) (pat : String) (tyF : LabeledView → Bool) :
    Except String (List LabeledView) :=
  match inp with
  | .overlayIn data => .ok ((data.filter (fun v => v.label.endsWith pat)).filter tyF)
  | .sheetViewIn v => .ok ((if v.label.endsWith pat then [v] else []).filter tyF)
  | .otherIn _ => .error "UnboundLocalError: local variable matches referenced before assignment"

/-- Whether the input is one of the two types `get_views` handles. -/
def isOverlayOrSheetB : GetViewsInput → Bool
  | .overlayIn _ => true
  | .sheetViewIn _ => true
  | .otherIn _ => false

/-! ## `RGBA` -/

/-- One step of the clipping loop of `RGBA._process` (lines 174-178):
when a layer's values leave `[0,1]` a warning is emitted and
`el.data.clip(0,1.0)` is evaluated — but `ndarray.clip` returns a new
array and the source drops it, so the layer's data is appended
unchanged either way.  Returns the warnings of this step and the array
appended to `arrays`. -/
def rgbaClipStep (el : SheetView) : List String × Arr :=
  if 1 < listMaxQ (arrValues el.data) ∨ listMinQ (arrValues el.data) < 0 then
    let _clipped := Arr.d2 (clip01 (asArr2 el.data))
    (["Clipping data into the interval [0, 1]"], el.data)
  else
    ([], el.data)

/-- The clip-and-collect loop over all layers, in layer order. -/
def rgbaClipLoop : List SheetView → List String × List Arr
  | [] => ([], [])
  | el :: rest =>
    let step := rgbaClipStep el
    let others := rgbaClipLoop rest
    (step.1 ++ others.1, step.2 :: others.2)

/-- `RGBA._process` (lines 163-183): an overlay of exactly 3 or 4
depth-one `SheetView` layers is depth-stacked into one view labelled
`RGBA` with the overlay's bounds and region of interest.  (The
`isinstance(el, SheetView)` check holds by the typing of the
embedding.)  The returned list pairs the produced views with the
warnings emitted along the way. -/
def rgbaProcess (overlay : SOverlay) : Except String (List SheetView × List String) :=
  if ¬(overlay.data.length = 3 ∨ overlay.data.length = 4) then
    .error "Requires 3 or 4 layers to convert to RGB(A)"
  else if ¬(overlay.data.all (fun el => el.depth = 1)) then
    .error "All SheetViews must have a depth of one for conversion to RGB(A) format"
  else
    let wa := rgbaClipLoop overlay.data
    .ok ([{ data := .d3 (dstack (wa.2.map asArr2)), bounds := overlay.bounds,
            label := "RGBA", roi_bounds := overlay.roi_bounds }], wa.1)

/-! ## `split` -/

/-- `split._process` (lines 307-313): a view in rgb or rgba mode splits
into one depth-one view per channel, labelled `R Channel`, `G Channel`,
`B Channel`, `A Channel` in channel order.  Indexing `data[:,:,i]` on a
two-axis array raises `IndexError`. -/
def splitProcess (sheetview : SheetView) : Except String (List SheetView) :=
  if ¬(sheetview.mode = .rgb ∨ sheetview.mode = .rgba) then
    .error "Can only split SheetViews with a depth of 3 or 4"
  else
    match sheetview.data with
    | .d2 _ => .error "IndexError: too many indices for array"
    | .d3 a =>
      .ok ((List.range sheetview.depth).map (fun i =>
        { data := .d2 (sliceChannel a i), bounds := sheetview.bounds,
          label := (String.mk ["RGBA".toList.getD i 'X']) ++ " Channel" }))

/-! ## `HCS` and `Colorize` -/

/-- `colorsys.hsv_to_rgb`, exact over the rationals.  `int(h*6.0)`
truncates toward zero; `i % 6` is Python's nonnegative remainder. -/
def hsvToRgb (h s v : ℚ) : ℚ × ℚ × ℚ :=
  if s = 0 then (v, v, v)
  else
    let i : ℤ := if h * 6 < 0 then -(Int.floor (-(h * 6))) else Int.floor (h * 6)
    let f : ℚ := h * 6 - (i : ℚ)
    let p := v * (1 - s)
    let q := v * (1 - s * f)
    let t := v * (1 - s * (1 - f))
    let im := i % 6
    if im = 0 then (v, t, p)
    else if im = 1 then (q, v, p)
    else if im = 2 then (p, v, q)
    else if im = 3 then (v, p, q)
    else if im = 4 then (t, v, p)
    else (p, q, t)

/-- Elementwise combination of three equal-shaped two-axis arrays. -/
def ewise3 (f : ℚ → ℚ → ℚ → ℚ) (A B C : List (List ℚ)) : List (List ℚ) :=
  List.zipWith (fun ra rbc => List.zipWith (fun a bc => f a bc.1 bc.2) ra (List.zip rbc.1 rbc.2))
    A (List.zip B C)

/-- `HCS._process` (lines 219-238): hue, confidence and optional
strength (default an all-ones array of hue's shape) are clipped and
gain-multiplied, optionally flipping strength and confidence, and pushed
through `hsv_to_rgb` into one RGB view with hue's bounds and the
overlay's region of interest. -/
def hcsProcess (Smult Cmult : ℚ) (flipSC : Bool) (overlay : SOverlay) :
    Except String (List SheetView) := do
  let hue ← ovGet overlay 0
  let confidence ← ovGet overlay 1
  let strengthData ←
    if overlay.data.length = 3 then do
      let s2 ← ovGet overlay 2
      pure (asArr2 s2.data)
    else
      pure (onesLike (asArr2 hue.data))
  if hue.shape ≠ confidence.shape then
    .error "Cannot combine plots with different shapes"
  else
    let h := clip01 (asArr2 (Nview hue).data)
    let s := clip01 (arrScale (asArr2 confidence.data) Cmult)
    let v := clip01 (arrScale strengthData Smult)
    let hsv := if flipSC then (h, v, clip01 s) else (h, s, v)
    let r := ewise3 (fun a b c => (hsvToRgb a b c).1) hsv.1 hsv.2.1 hsv.2.2
    let g := ewise3 (fun a b c => (hsvToRgb a b c).2.1) hsv.1 hsv.2.1 hsv.2.2
    let b := ewise3 (fun a b c => (hsvToRgb a b c).2.2) hsv.1 hsv.2.1 hsv.2.2
    let rgb := dstack [r, g, b]
    pure [{ data := .d3 rgb, bounds := hue.bounds, roi_bounds := overlay.roi_bounds,
            label := hue.label ++ " HCS" }]

/-- `HCS(...)` called on a bare overlay (`ViewOperation.__call__` lines
101-106): a single produced view is returned directly; `_process`
always returns one view here, so the `GridLayout` branch is
unreachable. -/
def hcsCall (Smult Cmult : ℚ) (flipSC : Bool) (overlay : SOverlay) :
    Except String SheetView := do
  let vs ← hcsProcess Smult Cmult flipSC overlay
  match vs with
  | [v] => pure v
  | _ => .error "GridLayout result"

/-- Modelled from the spec: overlay composition via `*` — the layers are
collected in order and share the first layer's bounding region and
region of interest (`Overlay` internals are external to this module). -/
def mulOverlay (vs : List SheetView) (fallback : Bounds) : SOverlay :=
  match vs with
  | [] => { data := [], bounds := fallback }
  | v0 :: _ => { data := vs, bounds := v0.bounds, roi_bounds := v0.roi_bounds }

/-- `Colorize._process` (lines 253-269), exactly as written: the first
guard is `len(overlay) != 2 AND overlay[0].mode != 'cmap'`, so it only
fires when both parts hold; then both layers must have depth one and
equal shapes; then the second layer, a constant all-ones confidence
field, and the normalized first layer are pushed through `HCS` with its
default parameters. -/
def colorizeProcess (overlay : SOverlay) : Except String (List SheetView) := do
  let firstGuard ←
    if overlay.data.length ≠ 2 then do
      let v0 ← ovGet overlay 0
      pure (decide (v0.mode ≠ Mode.cmap))
    else
      pure false
  if firstGuard then
    .error "Can only colorize grayscale overlayed with colour map."
  else do
    let v0 ← ovGet overlay 0
    let v1 ← ovGet overlay 1
    if ¬([v0.depth, v1.depth] = [1, 1]) then
      .error "Depth one layers required."
    else if v0.shape ≠ v1.shape then
      .error "Shapes don't match."
    else
      let C : SheetView :=
        { data := .d2 (onesLike (asArr2 v1.data)), bounds := overlay.bounds, label := "" }
      let hcs ← hcsCall 1 1 false (mulOverlay [v1, C, Nview v0] overlay.bounds)
      pure [{ data := hcs.data, bounds := hcs.bounds, roi_bounds := hcs.roi_bounds,
              label := v0.label ++ " Colorize" }]

/-! ## `contours`

The plotting backend is external: figure creation/closing and the one
contouring call are its only observable effects, recorded in a trace.
The contouring computation itself is a parameter (`contourFn`),
returning per-level polygon vertex lists or raising. -/

/-- An observable effect on the plotting backend. -/
inductive BackendEffect where
  | figureOpen
  | contourCall
  | figureClose
  deriving DecidableEq, Repr

/-- A polygonal contour line: a list of vertices. -/
def ContourLine := List (ℚ × ℚ)
deriving DecidableEq, Repr, Inhabited

/-- A `Contours` layer: vertex lists, bounds, the level recorded as
metadata, and a label. -/
structure ContoursV where
  lines : List ContourLine
  bounds : Bounds
  level : ℚ
  label : String
  deriving DecidableEq, Repr

/-- Result of `contours._process`: the input view overlaid with a single
contour layer, or with a `SheetOverlay` of several. -/
inductive ContourResult where
  | singleLevel (sv : SheetView) (c : ContoursV)
  | multiLevel (sv : SheetView) (cs : List ContoursV)
  deriving DecidableEq, Repr

/-- `contours._process` (lines 330-351) with its backend-effect trace:
`plt.figure()` first, then the single `plt.contour` call on
`(sheetview.data, extent=(l,r,t,b), levels)`, then the per-level
`Contours` layers are built (`zip` truncates to the shorter of levels
and collections), then `plt.close(figure_handle)` — which is only
reached when the contouring call returns; an exception from it
propagates with no close.  Returns the trace together with the
result. -/
def contoursProcess
    (contourFn : Arr → (ℚ × ℚ × ℚ × ℚ) → List ℚ → Except String (List (List ContourLine)))
    (levels : List ℚ) (sheetview : SheetView) :
    List BackendEffect × Except String (List ContourResult) :=
  -- `(l,b,r,t) = sheetview.bounds.lbrt()`; the extent passed is `(l,r,t,b)`.
  match contourFn sheetview.data
      (sheetview.bounds.l, sheetview.bounds.r, sheetview.bounds.t, sheetview.bounds.b) levels with
  | .error e => ([.figureOpen, .contourCall], .error e)
  | .ok collections =>
    let cs := (levels.zip collections).map (fun lc =>
      ({ lines := lc.2, bounds := sheetview.bounds, level := lc.1,
         label := sheetview.label ++ " Level" } : ContoursV))
    ([.figureOpen, .contourCall, .figureClose],
     .ok [match cs with
          | [c] => .singleLevel sheetview c
          | _ => .multiLevel sheetview cs])

/-! ## `sample` -/

/-- The argument of `sample._process`: a `Table`, or a view that is
neither a `SheetLayer` nor a `Table` and fails the `isinstance` guard.
(The `SheetLayer` arm, lines 370-376, converts sheet coordinates to
array indices through the external coordinate system and is outside
every claim.) -/
inductive SampleInput where
  | tableIn (t : Table)
  | otherIn (kind : String)
  deriving DecidableEq, Repr

/-- `sample._process` (lines 362-368) on its `Table` branch: keep
exactly the entries whose heading is among the requested samples, in the
table's own order, with label and metadata carried over. -/
def sampleProcess (samples : List String) : SampleInput → Except String (List Table)
  | .tableIn t =>
    .ok [{ data := t.data.filter (fun kv => decide (kv.1 ∈ samples)),
           label := t.label, metadata := t.metadata }]
  | .otherIn _ => .error "sample_sheet can only sample SheetLayers."

/-! ## `curve_collapse`

The input stack is modelled with `Table` entries (a `TableStack`; the
per-entry sampling step turns any supported stack into one).  Dimension
introspection (`dim_dict`, `dimension_labels`, `dim_index`) is derived
from the stack's dimension list, as the external stack classes do. -/

/-- The parameters of `curve_collapse` (`x_axis` allows `None`). -/
structure CollapseParams where
  x_axis : Option String := none
  group_by : List String := []
  samples : List String := []
  deriving DecidableEq, Repr

/-- The scalar column types the external `TableStack` type map can
report.  Every value of the embedding is a rational, so columns are
homogeneously float-typed. -/
inductive SampleTy where
  | tyFloat
  deriving DecidableEq, Repr

/-- Membership of a column type in `sample_types = [int, float] + ...`. -/
def tyNumeric : SampleTy → Bool
  | .tyFloat => true

/-- Modelled from the spec: the external `TableStack._type_map`, the
per-column type map of §3 used to validate homogeneity — one entry per
heading occurring in the stack's tables, `none` for an inhomogeneously
typed column.  With rational-valued tables every present column maps to
the float type. -/
def typeMapOf (s : OutStack Table) : List (String × Option SampleTy) :=
  (firstDedup ((s.entries.map (fun kv => kv.2.data.map Prod.fst)).flatten)).map
    (fun h => (h, some SampleTy.tyFloat))

/-- The per-sample loop of `_check_table_stack` (lines 438-442). -/
def checkSamplesLoop (tm : List (String × Option SampleTy)) :
    List String → Except String Unit
  | [] => .ok ()
  | h :: rest =>
    match assocLookup tm h with
    | some none => .error ("Cannot sample inhomogenous type " ++ h)
    | some (some ty) =>
      if tyNumeric ty then checkSamplesLoop tm rest
      else .error "Cannot sample from type"
    | none => .error ("KeyError: " ++ h)

/-- `curve_collapse._check_table_stack` (lines 429-445): every requested
sample must be a known, homogeneously typed, numeric column, and
`x_axis` must not be `None`. -/
def checkTableStack (p : CollapseParams) (s : OutStack Table) : Except String Unit :=
  let tm := typeMapOf s
  if ¬(p.samples.all (fun h => (tm.map Prod.fst).contains h)) then
    .error "Invalid list of heading samples."
  else
    match checkSamplesLoop tm p.samples with
    | .error e => .error e
    | .ok _ =>
      if p.x_axis = none then .error "x_axis None not found in stack"
      else .ok ()

/-- `stack.dim_dict[name]` (`KeyError` when the name is no dimension). -/
def dimDictE (s : OutStack γ) (n : String) : Except String Dimension :=
  match s.dimensions.find? (fun d => d.name = n) with
  | some d => .ok d
  | none => .error ("KeyError: " ++ n)

/-- `stack.dimension_labels`. -/
def dimensionLabels (s : OutStack γ) : List String := s.dimensions.map (fun d => d.name)

/-- `stack.dim_index(name)`. -/
def dimIndexOf (s : OutStack γ) (n : String) : ℕ := (dimensionLabels s).indexOf n

/-- Drop the coordinate at position `xn` from a key
(`k[:x_ndim] + k[x_ndim+1:]`). -/
def shortenKey (k : Key) (xn : ℕ) : Key := k.take xn ++ k.drop (xn + 1)

/-- Re-insert an x-axis coordinate into a shortened key
(`k[:x_ndim] + (x,) + k[x_ndim:]`). -/
def expandKey (k : Key) (xn : ℕ) (x : ℚ) : Key := k.take xn ++ [x] ++ k.drop xn

/-- `_split_keys_by_axis`, first component: the x-axis coordinates of
all keys, deduplicated in first-seen order. -/
def xAxisVals (entries : List (Key × Table)) (xn : ℕ) : List ℚ :=
  firstDedup (entries.map (fun kv => (kv.1 : List ℚ).getD xn 0))

/-- `_split_keys_by_axis`, second component: the shortened keys,
deduplicated in first-seen order. -/
def shortKeys (entries : List (Key × Table)) (xn : ℕ) : List Key :=
  firstDedup (entries.map (fun kv => shortenKey kv.1 xn))

/-- `curve_collapse.split_axis` (lines 459-489) on the stack's ordered
entries: for every shortened key, an ordered mapping from each observed
x-axis value whose expanded key actually exists in the stack to the
stored view; an absent expanded key contributes nothing (the lookup
succeeds exactly when `expanded_key in keys`). -/
def splitAxis (entries : List (Key × Table)) (xn : ℕ) :
    List (Key × List (ℚ × Table)) :=
  (shortKeys entries xn).map (fun k =>
    (k, (xAxisVals entries xn).filterMap (fun x =>
      (assocLookup entries (expandKey k xn x)).map (fun t => (x, t)))))

/-- A `Curve`: the point sequence plus labels and cyclic tagging. -/
structure Curve where
  data : List (ℚ × ℚ)
  cyclic_range : Option ℚ
  label : String
  legend_label : String
  xlabel : String
  ylabel : String
  metadata : Metadata
  deriving DecidableEq, Repr

/-- A `DataStack` of curve overlays under construction: keyed overlays
(each a list of curves), output dimensions, metadata and running
title. -/
structure DStack where
  dimensions : List Dimension
  metadata : Metadata
  title : String
  data : List (Key × List Curve)
  deriving DecidableEq, Repr

/-- The running (and final) per-sample value of `dataview` in
`_generate_curves`: a bare curve, a `DataOverlay` of curves, or a
`DataStack`. -/
inductive DataView where
  | curveV (c : Curve)
  | overlayV (cs : List Curve)
  | stackV (s : DStack)
  deriving DecidableEq, Repr

/-- `sampled_curve_data = [(x, view[sample]) for x, view in
x_axis_data.items()]` — only the x-axis values actually present
contribute a point; a missing heading raises `KeyError`. -/
def samplePoints (sample : String) : List (ℚ × Table) → Except String (List (ℚ × ℚ))
  | [] => .ok []
  | xt :: rest =>
    match tableGet xt.2 sample with
    | .error e => .error e
    | .ok v =>
      match samplePoints sample rest with
      | .error e => .error e
      | .ok others => .ok ((xt.1, v) :: others)

/-- Modelled from the spec: `Dimension.pprint_value`, the dimension's
pretty-printer for one coordinate value. -/
def pprintValue (d : Dimension) (v : ℚ) : String := toString v

/-- The legend parts `stack.dim_dict[name].pprint_value(val)` for the
grouped dimensions, in order. -/
def legendParts (s : OutStack Table) : List (String × ℚ) → Except String (List String)
  | [] => .ok []
  | nv :: rest => do
    let d ← dimDictE s nv.1
    let others ← legendParts s rest
    pure (pprintValue d nv.2 :: others)

/-- `curve_collapse._curve_labels` (lines 492-503): formatted
`(title_prefix, label, xlabel, ylabel)` for the original stack's type;
for any other stack type the Python function returns `None` and the
caller's tuple unpacking raises. -/
def curveLabels (stackTy : StackTy) (xAxis sample ylabel : String) :
    Except String (String × String × String × String) :=
  match stackTy with
  | .sheetStack =>
    .ok ("Coord: " ++ sample ++ " ",
         pyTitle (String.intercalate " " [pyCapitalize xAxis, ylabel]),
         pyTitle xAxis, pyTitle ylabel)
  | .tableStack =>
    .ok (ylabel ++ " ", pyTitle sample, pyTitle xAxis, pyTitle sample)
  | .dataStack => .error "TypeError: cannot unpack non-iterable NoneType object"

/-- `tuple(kval for ind, kval in enumerate(key) if ind not in
overlay_inds)`: the stack key with the grouped positions removed. -/
def dropOverlayInds (k : Key) (overlayInds : List ℕ) : Key :=
  (k : List ℚ).enum.filterMap (fun q => if overlayInds.contains q.1 then none else some q.2)

/-- Append a curve to the overlay stored at a key
(`dataview[stack_key] *= curve`), first match only (stack keys are
unique). -/
def appendCurveAt (data : List (Key × List Curve)) (k : Key) (c : Curve) :
    List (Key × List Curve) :=
  match data with
  | [] => []
  | p :: rest => if p.1 = k then (p.1, p.2 ++ [c]) :: rest else p :: appendCurveAt rest k c

/-- One iteration of the `for key, x_axis_data in split_data.items()`
loop of `_generate_curves` (lines 512-548) for a fixed sample: build the
curve for this shortened key and fold it into the running `dataview`. -/
def generateCurveItem (stackTy : StackTy) (p : CollapseParams) (s : OutStack Table)
    (stackDims : List Dimension) (overlayInds : List ℕ) (cyc : Option ℚ)
    (xAxis sample : String) (dv : Option DataView) (key : Key)
    (xAxisData : List (ℚ × Table)) : Except String (Option DataView) := do
  let pts ← samplePoints sample xAxisData
  let overlayItems := (p.group_by.zip overlayInds).map (fun ni => (ni.1, (key : List ℚ).getD ni.2 0))
  let parts ← legendParts s overlayItems
  let legendLabel := String.intercalate ", " parts
  let ylabel0 ←
    match xAxisData with
    | [] => Except.error "IndexError: list index out of range"
    | xt :: _ => Except.ok xt.2.label
  let labels ← curveLabels stackTy xAxis sample ylabel0
  let curve : Curve :=
    { data := pts, cyclic_range := cyc, metadata := s.metadata,
      label := labels.2.1, legend_label := legendLabel,
      xlabel := labels.2.2.1, ylabel := labels.2.2.2 }
  if stackDims.isEmpty then
    pure (match dv with
      | none => some (.curveV curve)
      | some (.curveV c0) => some (.overlayV [c0, curve])
      | some (.overlayV cs) => some (.overlayV (cs ++ [curve]))
      | some (.stackV s0) => some (.stackV s0))
  else
    match dv with
    | some (.stackV s0) =>
      let s1 : DStack := { s0 with title := labels.1 ++ s0.title }
      let stackKey := dropOverlayInds key overlayInds
      let s2 : DStack :=
        if (s1.data.map Prod.fst).contains stackKey then
          { s1 with data := appendCurveAt s1.data stackKey curve }
        else
          { s1 with data := s1.data ++ [(stackKey, [curve])] }
      pure (some (.stackV s2))
    | _ => .error "AttributeError: dataview is not a DataStack"

/-- The fold of `generateCurveItem` over the split data, in order. -/
def generateCurveFold (stackTy : StackTy) (p : CollapseParams) (s : OutStack Table)
    (stackDims : List Dimension) (overlayInds : List ℕ) (cyc : Option ℚ)
    (xAxis sample : String) (dv : Option DataView) :
    List (Key × List (ℚ × Table)) → Except String (Option DataView)
  | [] => .ok dv
  | kx :: rest => do
    let dv2 ← generateCurveItem stackTy p s stackDims overlayInds cyc xAxis sample dv kx.1 kx.2
    generateCurveFold stackTy p s stackDims overlayInds cyc xAxis sample dv2 rest

/-- `curve_collapse._generate_curves` (lines 506-551): one resulting
dataview per requested sample, starting from an empty `DataStack` of the
output dimensions when any remain and from `None` otherwise. -/
def generateCurves (stackTy : StackTy) (p : CollapseParams) (s : OutStack Table)
    (stackDims : List Dimension) (splitData : List (Key × List (ℚ × Table)))
    (overlayInds : List ℕ) (cyc : Option ℚ) (xAxis : String) :
    List String → Except String (List (Option DataView))
  | [] => .ok []
  | sample :: rest => do
    let dv0 : Option DataView :=
      if stackDims.isEmpty then none
      else some (.stackV { dimensions := stackDims, metadata := s.metadata,
                           title := s.title, data := [] })
    let dv ← generateCurveFold stackTy p s stackDims overlayInds cyc xAxis sample dv0 splitData
    let others ← generateCurves stackTy p s stackDims splitData overlayInds cyc xAxis rest
    pure (dv :: others)

/-- `curve_collapse._process` (lines 400-426): sample the stack through
the generic dispatch, validate the sampled table stack, resolve the
x-axis dimension, reject duplicated specified dimensions, split off the
x-axis and generate the curves.  `stackTy` is `type(stack)` of the
input stack. -/
def curveCollapseProcess (stackTy : StackTy) (stack : InStack Table)
    (p : CollapseParams) : Except String (List (Option DataView)) :=
  match viewOpCallStack (fun (_ : Table) => ViewCat.tableCat)
      (fun t => sampleProcess p.samples (.tableIn t)) stack with
  | .error e => .error e
  | .ok (.grid _) => .error "AttributeError: GridLayout has no dim_dict"
  | .ok (.single sampled) =>
    match checkTableStack p sampled with
    | .error e => .error e
    | .ok _ =>
      match p.x_axis with
      | none => .error "KeyError: None"
      | some x =>
        match dimDictE sampled x with
        | .error e => .error e
        | .ok xDim =>
          let specified := x :: p.group_by
          if specified.length ≠ (firstDedup specified).length then
            .error "X axis cannot be included in grouped dimensions."
          else
            let stackDims := sampled.dimensions.filter (fun d => ¬(specified.contains d.name))
            let splitData := splitAxis sampled.entries (dimIndexOf sampled x)
            let outputDims := (dimensionLabels sampled).filter (fun n => n ≠ x)
            let overlayInds := outputDims.enum.filterMap
              (fun q => if p.group_by.contains q.2 then some q.1 else none)
            let cyc := if xDim.cyclic then some xDim.range.2 else none
            generateCurves stackTy p sampled stackDims splitData overlayInds cyc x p.samples

/-- Result of the `StackOperation.__call__` wrapper: the single
generated dataview, or a `GridLayout` of all of them. -/
inductive CollapseResult where
  | one (dv : Option DataView)
  | gridL (dvs : List (Option DataView))
  deriving DecidableEq, Repr

/-- `curve_collapse(stack, ...)` (`StackOperation.__call__`, lines
132-143): run `_process`, then return the single result or a grid
layout. -/
def curveCollapseCall (stackTy : StackTy) (stack : InStack Table)
    (p : CollapseParams) : Except String CollapseResult :=
  match curveCollapseProcess stackTy stack p with
  | .error e => .error e
  | .ok dvs =>
    match dvs with
    | [dv] => .ok (.one dv)
    | _ => .ok (.gridL dvs)

/-! ## Helper lemmas -/

theorem assocUpdate_eq_append [DecidableEq κ] {l : List (κ × ν)} {k : κ} {v : ν}
    (h : k ∉ l.map Prod.fst) : assocUpdate l k v = l ++ [(k, v)] := by
  induction l with
  | nil => rfl
  | cons p rest ih =>
    simp only [List.map_cons, List.mem_cons, not_or] at h
    simp [assocUpdate, Ne.symm h.1, ih h.2]

theorem assocLookup_eq_none [DecidableEq κ] {l : List (κ × ν)} {k : κ} :
    assocLookup l k = none ↔ k ∉ l.map Prod.fst := by
  induction l with
  | nil => simp [assocLookup]
  | cons p rest ih =>
    by_cases h : p.1 = k
    · simp [assocLookup, h]
    · simp [assocLookup, h, ih, Ne.symm h]

theorem assocLookup_of_map {β : Type} [DecidableEq κ] {l : List κ} {f : κ → β} {k : κ}
    (hnd : l.Nodup) (hk : k ∈ l) : assocLookup (l.map (fun x => (x, f x))) k = some (f k) := by
  induction l with
  | nil => cases hk
  | cons a rest ih =>
    rcases List.mem_cons.mp hk with h | h
    · simp [assocLookup, h]
    · have hne : a ≠ k := by
        rintro rfl
        exact (List.nodup_cons.mp hnd).1 h
      simp [assocLookup, hne, ih (List.nodup_cons.mp hnd).2 h]

theorem firstDedupGo_length_le [DecidableEq α] (seen : List α) (l : List α) :
    (firstDedupGo seen l).length ≤ l.length := by
  induction l generalizing seen with
  | nil => simp [firstDedupGo]
  | cons a rest ih =>
    by_cases h : a ∈ seen
    · simp only [firstDedupGo, if_pos h]
      exact le_trans (ih seen) (Nat.le_succ _)
    · simp only [firstDedupGo, if_neg h, List.length_cons]
      exact Nat.succ_le_succ (ih (a :: seen))

theorem firstDedupGo_length_lt [DecidableEq α] {x : α} (seen : List α) (l : List α)
    (hx : x ∈ l) (hs : x ∈ seen) : (firstDedupGo seen l).length < l.length := by
  induction l generalizing seen with
  | nil => cases hx
  | cons a rest ih =>
    by_cases h : a ∈ seen
    · simp only [firstDedupGo, if_pos h, List.length_cons]
      exact Nat.lt_succ_of_le (firstDedupGo_length_le seen rest)
    · have hxa : x ≠ a := by
        rintro rfl
        exact h hs
      have hxr : x ∈ rest := by
        rcases List.mem_cons.mp hx with h1 | h1
        · exact absurd h1 hxa
        · exact h1
      simp only [firstDedupGo, if_neg h, List.length_cons]
      exact Nat.succ_lt_succ (ih (a :: seen) hxr (List.mem_cons_of_mem a hs))

theorem firstDedupGo_not_mem_seen [DecidableEq α] {x : α} (seen : List α) (l : List α)
    (hx : x ∈ firstDedupGo seen l) : x ∉ seen := by
  induction l generalizing seen with
  | nil => cases hx
  | cons a rest ih =>
    by_cases h : a ∈ seen
    · exact ih seen (by simpa [firstDedupGo, if_pos h] using hx)
    · simp only [firstDedupGo, if_neg h] at hx
      rcases List.mem_cons.mp hx with h1 | h1
      · subst h1
        exact h
      · intro hxs
        exact ih (a :: seen) h1 (List.mem_cons_of_mem a hxs)

theorem firstDedupGo_nodup [DecidableEq α] (seen : List α) (l : List α) :
    (firstDedupGo seen l).Nodup := by
  induction l generalizing seen with
  | nil => simp [firstDedupGo]
  | cons a rest ih =>
    by_cases h : a ∈ seen
    · simpa [firstDedupGo, if_pos h] using ih seen
    · simp only [firstDedupGo, if_neg h, List.nodup_cons]
      refine ⟨fun hmem => ?_, ih (a :: seen)⟩
      exact firstDedupGo_not_mem_seen (a :: seen) rest hmem (List.mem_cons_self a seen)

theorem firstDedup_nodup [DecidableEq α] (l : List α) : (firstDedup l).Nodup :=
  firstDedupGo_nodup [] l

theorem firstDedup_dup_length_lt [DecidableEq α] {x : α} {l : List α} (hx : x ∈ l) :
    (firstDedup (x :: l)).length < (x :: l).length := by
  have h0 : (x : α) ∉ ([] : List α) := List.not_mem_nil x
  simp only [firstDedup, firstDedupGo, if_neg h0, List.length_cons]
  exact Nat.succ_lt_succ (firstDedupGo_length_lt [x] l hx (List.mem_cons_self x []))

theorem filterMap_length_lt {f : α → Option β} {l : List α} {x : α}
    (hx : x ∈ l) (hfx : f x = none) : (l.filterMap f).length < l.length := by
  induction l with
  | nil => cases hx
  | cons a rest ih =>
    rcases List.mem_cons.mp hx with h | h
    · subst h
      rw [List.filterMap_cons, hfx]
      exact Nat.lt_succ_of_le (List.length_filterMap_le f rest)
    · cases hfa : f a with
      | none =>
        rw [List.filterMap_cons, hfa]
        exact Nat.lt_succ_of_lt (ih h)
      | some b =>
        rw [List.filterMap_cons, hfa]
        exact Nat.succ_lt_succ (ih h)

/-! ## Claim C10: `get_views` on other input types -/

/-- C10.  For every input to `ViewOperation.get_views` that is neither
an `Overlay` nor a `SheetView`, the call fails (`matches` is never
bound), and `get_views` returns a (label- and type-filtered) list
exactly for those two input types. -/
theorem getViews_requires_overlay_or_sheetview
    (inp : GetViewsInput) (pat : String) (tyF : LabeledView → Bool) :
    isOkB (getViews inp pat tyF) = isOverlayOrSheetB inp ∧
    (∀ kind, getViews (.otherIn kind) pat tyF =
      .error "UnboundLocalError: local variable matches referenced before assignment") := by
  constructor
  · cases inp <;> rfl
  · intro kind
    rfl

/-! ## Claim C3: the RGBA clipping is announced but not applied -/

/-- C3 (code bug).  On an overlay of three single-channel views whose
first layer holds the out-of-range value `2`, `RGBA._process` does not
fail and emits the clipping warning, but the depth-stacked output still
contains the unclipped value `2`: `el.data.clip(0,1.0)` allocates a
clipped copy that the source discards, so no clipping reaches the
output, contradicting the claimed in-place clip. -/
theorem rgba_clip_discarded_on_failing_input :
    rgbaProcess
      { data := [{ data := .d2 [[2]], bounds := ⟨0, 0, 1, 1⟩, label := "L0" },
                 { data := .d2 [[1]], bounds := ⟨0, 0, 1, 1⟩, label := "L1" },
                 { data := .d2 [[0]], bounds := ⟨0, 0, 1, 1⟩, label := "L2" }],
        bounds := ⟨0, 0, 1, 1⟩ } =
      .ok ([{ data := .d3 [[[2, 1, 0]]], bounds := ⟨0, 0, 1, 1⟩, label := "RGBA" }],
           ["Clipping data into the interval [0, 1]"]) ∧
    ¬(∀ q ∈ arrValues (.d3 [[[2, 1, 0]]]), 0 ≤ q ∧ q ≤ 1) := by
  constructor
  · decide
  · decide

/-! ## Claim C5: the Colorize guard uses `and` instead of `or` -/

/-- C5 (code bug).  An overlay of three depth-one equal-shaped layers
whose first layer is in cmap mode is accepted by `Colorize._process`
and produces an output view: the first guard is
`len(overlay) != 2 and overlay[0].mode != 'cmap'`, so neither the
layer-count requirement nor the mode requirement is enforced on its
own, contradicting the claim that each must fail independently. -/
theorem colorize_three_layer_overlay_accepted :
    ({ data := [{ data := .d2 [[1/2]], bounds := ⟨0, 0, 1, 1⟩, label := "A", mode := .cmap },
                { data := .d2 [[1/4]], bounds := ⟨0, 0, 1, 1⟩, label := "B", mode := .cmap },
                { data := .d2 [[3/4]], bounds := ⟨0, 0, 1, 1⟩, label := "C", mode := .cmap }],
       bounds := ⟨0, 0, 1, 1⟩ } : SOverlay).data.length = 3 ∧
    isOkB (colorizeProcess
      { data := [{ data := .d2 [[1/2]], bounds := ⟨0, 0, 1, 1⟩, label := "A", mode := .cmap },
                 { data := .d2 [[1/4]], bounds := ⟨0, 0, 1, 1⟩, label := "B", mode := .cmap },
                 { data := .d2 [[3/4]], bounds := ⟨0, 0, 1, 1⟩, label := "C", mode := .cmap }],
        bounds := ⟨0, 0, 1, 1⟩ }) = true := by
  constructor
  · rfl
  · decide

/-! ## Claim C9: the contour figure handle lifecycle -/

/-- C9 counterexample.  When the contouring call raises, the figure
handle that was opened before it is never closed: the trace of the run
contains the open but no close, so backend figure state leaks on the
raising exit path, contradicting the claim that the handle is closed on
every exit path. -/
theorem contours_figure_leak_on_raise :
    (contoursProcess (fun _ _ _ => .error "ValueError: Contour levels must be increasing")
      [1/2] { data := .d2 [[1/2]], bounds := ⟨0, 0, 1, 1⟩, label := "A" }).1 =
      [.figureOpen, .contourCall] ∧
    BackendEffect.figureClose ∉
      (contoursProcess (fun _ _ _ => .error "ValueError: Contour levels must be increasing")
        [1/2] { data := .d2 [[1/2]], bounds := ⟨0, 0, 1, 1⟩, label := "A" }).1 ∧
    isOkB (contoursProcess (fun _ _ _ => .error "ValueError: Contour levels must be increasing")
      [1/2] { data := .d2 [[1/2]], bounds := ⟨0, 0, 1, 1⟩, label := "A" }).2 = false := by
  refine ⟨rfl, by decide, rfl⟩

/-- C9 as amended.  The figure handle is created before the single
contouring call; when that call returns, the handle is closed after the
contour layers are read off (no other backend effect intervenes); when
the call raises, the exception propagates and the handle is left open. -/
theorem contours_figure_lifecycle
    (cf : Arr → (ℚ × ℚ × ℚ × ℚ) → List ℚ → Except String (List (List ContourLine)))
    (levels : List ℚ) (sv : SheetView) :
    (isOkB (contoursProcess cf levels sv).2 = true →
      (contoursProcess cf levels sv).1 = [.figureOpen, .contourCall, .figureClose]) ∧
    (isOkB (contoursProcess cf levels sv).2 = false →
      (contoursProcess cf levels sv).1 = [.figureOpen, .contourCall]) := by
  unfold contoursProcess
  cases cf sv.data (sv.bounds.l, sv.bounds.r, sv.bounds.t, sv.bounds.b) levels with
  | error e => exact ⟨fun h => absurd h (by simp [isOkB]), fun _ => rfl⟩
  | ok c => exact ⟨fun _ => rfl, fun h => absurd h (by simp [isOkB])⟩

/-- C9 witness: on a successful contouring run the trace is exactly
open-contour-close. -/
theorem contours_figure_lifecycle_witness :
    (contoursProcess (fun _ _ _ => .ok [[[((0 : ℚ), (0 : ℚ))]]])
      [1/2] { data := .d2 [[1/2]], bounds := ⟨0, 0, 1, 1⟩, label := "A" }).1 =
      [.figureOpen, .contourCall, .figureClose] :=
  (contours_figure_lifecycle (fun _ _ _ => .ok [[[((0 : ℚ), (0 : ℚ))]]])
    [1/2] { data := .d2 [[1/2]], bounds := ⟨0, 0, 1, 1⟩, label := "A" }).1 (by decide)

/-! ## Claim C8: `sample` on a `Table` -/

theorem map_fst_filter_mem {ν : Type} (l : List (String × ν)) (samples : List String) :
    (l.filter (fun kv => decide (kv.1 ∈ samples))).map Prod.fst
      = (l.map Prod.fst).filter (fun k => decide (k ∈ samples)) := by
  induction l with
  | nil => rfl
  | cons p rest ih =>
    by_cases h : p.1 ∈ samples <;>
      simp [List.filter_cons, h, ih]

/-- C8.  Sampling a `Table` returns the sub-table of exactly the
requested keys that are present, in the table's own key order (its key
list is the table's key list filtered by membership, a sublist of the
original); requested keys absent from the table are silently omitted
with no error; and the result depends only on the membership of the
request list, not on its order. -/
theorem sampleTable_filters_requested_keys (t : Table) (samples : List String) :
    ∃ t2, sampleProcess samples (.tableIn t) = .ok [t2] ∧
      t2.data.map Prod.fst = (t.data.map Prod.fst).filter (fun k => decide (k ∈ samples)) ∧
      t2.data.Sublist t.data ∧
      (∀ k, k ∈ samples → k ∉ t.data.map Prod.fst → k ∉ t2.data.map Prod.fst) ∧
      t2.label = t.label ∧
      (∀ samples2, (∀ k, k ∈ samples2 ↔ k ∈ samples) →
        sampleProcess samples2 (.tableIn t) = .ok [t2]) := by
  refine ⟨_, rfl, map_fst_filter_mem t.data samples, List.filter_sublist t.data, ?_, rfl, ?_⟩
  · intro k hks hkt hk2
    rw [map_fst_filter_mem t.data samples] at hk2
    exact hkt (List.mem_of_mem_filter hk2)
  · intro samples2 hmem
    simp only [sampleProcess, Except.ok.injEq, List.cons.injEq, and_true]
    have : t.data.filter (fun kv => decide (kv.1 ∈ samples2))
        = t.data.filter (fun kv => decide (kv.1 ∈ samples)) := by
      refine List.filter_congr (fun kv _ => ?_)
      exact decide_eq_decide.mpr (hmem kv.1)
    rw [this]

/-- C8 witness: a concrete table sampled with an out-of-order request
containing an absent key. -/
theorem sampleTable_filters_requested_keys_witness :
    ∃ t2, sampleProcess ["b", "zz", "a"]
        (.tableIn { data := [("a", 1), ("b", 2), ("c", 3)], label := "t" }) = .ok [t2] ∧
      t2.data.map Prod.fst =
        (([("a", (1 : ℚ)), ("b", 2), ("c", 3)].map Prod.fst).filter
          (fun k => decide (k ∈ ["b", "zz", "a"]))) ∧
      t2.data.Sublist [("a", 1), ("b", 2), ("c", 3)] ∧
      (∀ k, k ∈ ["b", "zz", "a"] → k ∉ [("a", (1 : ℚ)), ("b", 2), ("c", 3)].map Prod.fst →
        k ∉ t2.data.map Prod.fst) ∧
      t2.label = "t" ∧
      (∀ samples2, (∀ k, k ∈ samples2 ↔ k ∈ ["b", "zz", "a"]) →
        sampleProcess samples2
          (.tableIn { data := [("a", 1), ("b", 2), ("c", 3)], label := "t" }) = .ok [t2]) :=
  sampleTable_filters_requested_keys { data := [("a", 1), ("b", 2), ("c", 3)], label := "t" }
    ["b", "zz", "a"]

/-! ## Claim C4: channel split then RGBA re-composition -/

theorem foldl_max_le {l : List ℚ} {init : ℚ} (hi : init ≤ 1) (h : ∀ x ∈ l, x ≤ 1) :
    l.foldl max init ≤ 1 := by
  induction l generalizing init with
  | nil => exact hi
  | cons x xs ih =>
    exact ih (max_le hi (h x (List.mem_cons_self x xs)))
      (fun y hy => h y (List.mem_cons_of_mem x hy))

theorem le_foldl_min {l : List ℚ} {init : ℚ} (hi : 0 ≤ init) (h : ∀ x ∈ l, 0 ≤ x) :
    0 ≤ l.foldl min init := by
  induction l generalizing init with
  | nil => exact hi
  | cons x xs ih =>
    exact ih (le_min hi (h x (List.mem_cons_self x xs)))
      (fun y hy => h y (List.mem_cons_of_mem x hy))

theorem listMaxQ_le {l : List ℚ} (h : ∀ x ∈ l, x ≤ 1) : listMaxQ l ≤ 1 := by
  cases l with
  | nil => exact zero_le_one
  | cons x xs =>
    exact foldl_max_le (h x (List.mem_cons_self x xs)) (fun y hy => h y hy)

theorem le_listMinQ {l : List ℚ} (h : ∀ x ∈ l, 0 ≤ x) : 0 ≤ listMinQ l := by
  cases l with
  | nil => exact le_refl 0
  | cons x xs =>
    exact le_foldl_min (h x (List.mem_cons_self x xs)) (fun y hy => h y hy)

/-- When a layer's values all sit in `[0,1]`, the clip step emits no
warning and passes the data through. -/
theorem rgbaClipStep_in_range {el : SheetView}
    (h : ∀ x ∈ arrValues el.data, 0 ≤ x ∧ x ≤ 1) : rgbaClipStep el = ([], el.data) := by
  unfold rgbaClipStep
  rw [if_neg]
  rw [not_or]
  exact ⟨not_lt.mpr (listMaxQ_le (fun x hx => (h x hx).2)),
         not_lt.mpr (le_listMinQ (fun x hx => (h x hx).1))⟩

theorem pixel_eta {px : List ℚ} (h : px.length = 3) :
    [px.getD 0 0, px.getD 1 0, px.getD 2 0] = px := by
  rcases List.length_eq_three.mp h with ⟨x, y, z, rfl⟩
  rfl

theorem dstackPixel_slices (row : List (List ℚ)) (h : ∀ px ∈ row, px.length = 3) :
    dstackPixel (row.map (fun px => px.getD 0 0))
      [row.map (fun px => px.getD 0 0), row.map (fun px => px.getD 1 0),
       row.map (fun px => px.getD 2 0)] = row := by
  induction row with
  | nil => rfl
  | cons px prest ih =>
    simp only [List.map_cons]
    rw [dstackPixel]
    simp only [List.map_cons, List.map_nil, List.headD_cons, List.tail_cons]
    rw [pixel_eta (h px (List.mem_cons_self px prest)),
        ih (fun q hq => h q (List.mem_cons_of_mem px hq))]

theorem dstackRows_slices (a : List (List (List ℚ)))
    (h : ∀ row ∈ a, ∀ px ∈ row, px.length = 3) :
    dstackRows (sliceChannel a 0)
      [sliceChannel a 0, sliceChannel a 1, sliceChannel a 2] = a := by
  induction a with
  | nil => rfl
  | cons row arest ih =>
    simp only [sliceChannel, List.map_cons]
    rw [dstackRows]
    simp only [List.map_cons, List.map_nil, List.headD_cons, List.tail_cons]
    rw [dstackPixel_slices row (h row (List.mem_cons_self row arest))]
    have := ih (fun r hr => h r (List.mem_cons_of_mem row hr))
    simp only [sliceChannel] at this
    rw [this]

/-- Depth-stacking the three channel slices of a well-formed
three-channel array reproduces the array. -/
theorem dstack_slices (a : List (List (List ℚ)))
    (h : ∀ row ∈ a, ∀ px ∈ row, px.length = 3) :
    dstack [sliceChannel a 0, sliceChannel a 1, sliceChannel a 2] = a := by
  rw [dstack]
  exact dstackRows_slices a h

theorem mem_slice_values {a : List (List (List ℚ))} {c : ℕ} {x : ℚ}
    (hx : x ∈ (sliceChannel a c).flatten) : ∃ row ∈ a, ∃ px ∈ row, x = px.getD c 0 := by
  rcases List.mem_flatten.mp hx with ⟨r2, hr2, hxr⟩
  rcases List.mem_map.mp hr2 with ⟨row, hrow, rfl⟩
  rcases List.mem_map.mp hxr with ⟨px, hpx, rfl⟩
  exact ⟨row, hrow, px, hpx, rfl⟩

/-- C4.  For every RGB view (mode `rgb`, depth 3, rectangular pixels,
values in `[0,1]`), channel split yields views labelled exactly
`R Channel`, `G Channel`, `B Channel`, and RGBA re-composition of those
views reproduces the original array exactly, with no clipping
warning. -/
theorem split_rgba_roundtrip (sv : SheetView) (a : List (List (List ℚ)))
    (hd : sv.data = Arr.d3 a) (hm : sv.mode = Mode.rgb) (hdep : sv.depth = 3)
    (hwf : ∀ row ∈ a, ∀ px ∈ row, px.length = 3)
    (hrange : ∀ row ∈ a, ∀ px ∈ row, ∀ c ∈ px, 0 ≤ c ∧ c ≤ 1) :
    ∃ views out,
      splitProcess sv = .ok views ∧
      views.map (fun v => v.label) = ["R Channel", "G Channel", "B Channel"] ∧
      rgbaProcess { data := views, bounds := sv.bounds, roi_bounds := sv.roi_bounds } =
        .ok ([out], []) ∧
      out.data = .d3 a := by
  have hslice : ∀ c : ℕ, ∀ x ∈ arrValues (Arr.d2 (sliceChannel a c)), 0 ≤ x ∧ x ≤ 1 := by
    intro c x hx
    rcases mem_slice_values hx with ⟨row, hrow, px, hpx, rfl⟩
    by_cases hc : c < px.length
    · have : px.getD c 0 ∈ px := by
        rw [List.getD_eq_getElem px 0 hc]
        exact List.getElem_mem hc
      exact hrange row hrow px hpx _ this
    · rw [List.getD_eq_default _ _ (le_of_not_lt hc)]
      exact ⟨le_refl 0, zero_le_one⟩
  have hsplit : splitProcess sv =
      .ok [{ data := .d2 (sliceChannel a 0), bounds := sv.bounds, label := "R Channel" },
           { data := .d2 (sliceChannel a 1), bounds := sv.bounds, label := "G Channel" },
           { data := .d2 (sliceChannel a 2), bounds := sv.bounds, label := "B Channel" }] := by
    unfold splitProcess
    rw [if_neg (by simp [hm])]
    rw [hd, hdep]
    rfl
  have hloop : rgbaClipLoop
      [{ data := .d2 (sliceChannel a 0), bounds := sv.bounds, label := "R Channel" },
       { data := .d2 (sliceChannel a 1), bounds := sv.bounds, label := "G Channel" },
       { data := .d2 (sliceChannel a 2), bounds := sv.bounds, label := "B Channel" }] =
      ([], [Arr.d2 (sliceChannel a 0), Arr.d2 (sliceChannel a 1), Arr.d2 (sliceChannel a 2)]) := by
    simp only [rgbaClipLoop]
    rw [rgbaClipStep_in_range (hslice 0), rgbaClipStep_in_range (hslice 1),
        rgbaClipStep_in_range (hslice 2)]
    rfl
  have hrgba : rgbaProcess
      { data := [{ data := .d2 (sliceChannel a 0), bounds := sv.bounds, label := "R Channel" },
                 { data := .d2 (sliceChannel a 1), bounds := sv.bounds, label := "G Channel" },
                 { data := .d2 (sliceChannel a 2), bounds := sv.bounds, label := "B Channel" }],
        bounds := sv.bounds, roi_bounds := sv.roi_bounds } =
      .ok ([{ data := Arr.d3 a, bounds := sv.bounds, label := "RGBA",
              roi_bounds := sv.roi_bounds }], []) := by
    unfold rgbaProcess
    rw [if_neg (by simp)]
    rw [if_neg (by simp [SheetView.depth, arrDepth])]
    rw [hloop]
    simp only [List.map_cons, List.map_nil, asArr2]
    rw [dstack_slices a hwf]
  exact ⟨_, _, hsplit, rfl, hrgba, rfl⟩

/-! ## Claims C1 and C2: stack dispatch of `ViewOperation.__call__` -/

theorem processEntries_ok {α β : Type} {process : α → Except String (List β)} {f : Key → List β}
    {l : List (Key × α)} (hf : ∀ kv ∈ l, process kv.2 = .ok (f kv.1)) :
    processEntries process l = .ok (l.map (fun kv => (kv.1, f kv.1))) := by
  induction l with
  | nil => rfl
  | cons kv rest ih =>
    rw [processEntries, hf kv (List.mem_cons_self kv rest),
        ih (fun q hq => hf q (List.mem_cons_of_mem kv hq))]
    rfl

theorem viewSig_length {β : Type} {cat : β → ViewCat} {vs : List β} {s : List StackTy}
    (h : viewSig cat vs = .ok s) : vs.length = s.length := by
  induction vs generalizing s with
  | nil =>
    simp only [viewSig, Except.ok.injEq] at h
    rw [← h]
    rfl
  | cons v rest ih =>
    simp only [viewSig] at h
    cases hc : catToStackTy (cat v) with
    | error e => simp [hc] at h
    | ok st =>
      simp only [hc] at h
      cases hr : viewSig cat rest with
      | error e => simp [hr] at h
      | ok others =>
        simp only [hr, Except.ok.injEq] at h
        rw [← h]
        simp [ih hr]

theorem signatureLoop_some_all {β : Type} {cat : β → ViewCat} {s0 : List StackTy}
    {L : List (List β)} {r : Option (List StackTy)}
    (h : signatureLoop cat (some s0) L = .ok r) : ∀ vs ∈ L, viewSig cat vs = .ok s0 := by
  induction L with
  | nil => intro vs hvs; cases hvs
  | cons x rest ih =>
    intro vs hvs
    simp only [signatureLoop] at h
    cases hx : viewSig cat x with
    | error e => simp [hx] at h
    | ok s =>
      simp only [hx] at h
      by_cases hss : s0 = s
      · subst hss
        simp only [ne_eq, not_true_eq_false, if_neg, ite_false] at h
        rcases List.mem_cons.mp hvs with rfl | hmem
        · exact hx
        · exact ih h vs hmem
      · rw [if_pos hss] at h
        cases h

theorem getSignature_cons_all {β : Type} {cat : β → ViewCat} {x : List β} {L : List (List β)}
    {r : Option (List StackTy)} (h : getSignature cat (x :: L) = .ok r) :
    ∃ s, viewSig cat x = .ok s ∧ ∀ vs ∈ L, viewSig cat vs = .ok s := by
  simp only [getSignature, signatureLoop] at h
  cases hx : viewSig cat x with
  | error e => simp [hx] at h
  | ok s =>
    simp only [hx] at h
    exact ⟨s, rfl, signatureLoop_some_all h⟩

theorem signatureLoop_all_ok {β : Type} {cat : β → ViewCat} {s : List StackTy}
    {L : List (List β)} (h : ∀ vs ∈ L, viewSig cat vs = .ok s) :
    signatureLoop cat (some s) L = .ok (some s) := by
  induction L with
  | nil => rfl
  | cons x rest ih =>
    rw [signatureLoop, h x (List.mem_cons_self x rest)]
    simp only [ne_eq, not_true_eq_false, ite_false, if_neg]
    exact ih (fun vs hvs => h vs (List.mem_cons_of_mem x hvs))

theorem getSignature_all_ok {β : Type} {cat : β → ViewCat} {s : List StackTy}
    {L : List (List β)} (hne : L ≠ []) (h : ∀ vs ∈ L, viewSig cat vs = .ok s) :
    getSignature cat L = .ok (some s) := by
  cases L with
  | nil => exact absurd rfl hne
  | cons x rest =>
    rw [getSignature, signatureLoop, h x (List.mem_cons_self x rest)]
    exact signatureLoop_all_ok (fun vs hvs => h vs (List.mem_cons_of_mem x hvs))

theorem insertEntryViews_ok {β : Type} {k : Key} :
    ∀ {vs : List β} {sts : List (OutStack β)}, vs.length = sts.length →
    insertEntryViews sts k vs = .ok (List.zipWith (fun s v => stackInsertKey s k v) sts vs) := by
  intro vs
  induction vs with
  | nil =>
    intro sts h
    have : sts = [] := by
      cases sts with
      | nil => rfl
      | cons s srest => simp at h
    subst this
    rfl
  | cons v vrest ih =>
    intro sts h
    cases sts with
    | nil => simp at h
    | cons s srest =>
      rw [insertEntryViews, ih (by simpa using h)]
      rfl

theorem fillStacks_spec {β : Type} [Inhabited β] :
    ∀ (mapped : List (Key × List β)) (sts : List (OutStack β)),
    (mapped.map Prod.fst).Nodup →
    (∀ (n : ℕ) (s : OutStack β), sts[n]? = some s → ∀ p ∈ mapped, p.1 ∉ s.entries.map Prod.fst) →
    (∀ p ∈ mapped, p.2.length = sts.length) →
    fillStacks sts mapped = .ok (sts.enum.map (fun q =>
      { q.2 with entries := q.2.entries ++ mapped.map (fun p => (p.1, p.2.getD q.1 default)) }))
  | [], sts => by
    intro hnd hdisj hlen
    simp only [fillStacks, List.map_nil, List.append_nil]
    exact congrArg Except.ok (List.enum_map_snd sts).symm
  | (k, vs) :: rest, sts => by
    intro hnd hdisj hlen
    have hvslen : vs.length = sts.length := hlen (k, vs) (List.mem_cons_self _ rest)
    have hknotrest : k ∉ rest.map Prod.fst := by
      have := hnd
      simp only [List.map_cons, List.nodup_cons] at this
      exact this.1
    simp only [fillStacks, insertEntryViews_ok hvslen]
    rw [fillStacks_spec rest (List.zipWith (fun s v => stackInsertKey s k v) sts vs)
      (by simpa using hnd.of_cons)
      (by
        intro n s2 hs2 p hp
        rw [List.getElem?_zipWith] at hs2
        cases hsn : sts[n]? with
        | none => rw [hsn] at hs2; cases hs2
        | some s =>
          cases hvn : vs[n]? with
          | none => rw [hsn, hvn] at hs2; cases hs2
          | some v =>
            rw [hsn, hvn] at hs2
            have hs2' : stackInsertKey s k v = s2 := by
              simpa using hs2
            have hkfresh : k ∉ s.entries.map Prod.fst :=
              hdisj n s hsn (k, vs) (List.mem_cons_self _ rest)
            rw [← hs2']
            simp only [stackInsertKey, assocUpdate_eq_append hkfresh, List.map_append,
              List.map_cons, List.map_nil, List.mem_append, List.mem_cons,
              List.not_mem_nil, or_false, not_or]
            refine ⟨hdisj n s hsn p (List.mem_cons_of_mem _ hp), ?_⟩
            intro hpk
            exact hknotrest (hpk ▸ List.mem_map_of_mem Prod.fst hp))
      (by
        intro p hp
        rw [List.length_zipWith, hvslen, min_self]
        exact hlen p (List.mem_cons_of_mem _ hp))]
    refine congrArg Except.ok (List.ext_get? (fun n => ?_))
    rw [List.get?_eq_getElem?, List.get?_eq_getElem?]
    rw [List.getElem?_map, List.getElem?_map, List.getElem?_enum, List.getElem?_enum,
        List.getElem?_zipWith]
    cases hsn : sts[n]? with
    | none => cases hvn : vs[n]? <;> rfl
    | some s =>
      cases hvn : vs[n]? with
      | none =>
        have h1 : n < sts.length := by
          have := List.getElem?_eq_some.mp hsn
          exact this.1
        have h2 : vs.length ≤ n := List.getElem?_eq_none_iff.mp hvn
        omega
      | some v =>
        have hkfresh : k ∉ s.entries.map Prod.fst :=
          hdisj n s hsn (k, vs) (List.mem_cons_self _ rest)
        simp [stackInsertKey, assocUpdate_eq_append hkfresh, hvn, List.append_assoc]

theorem fillStacks_init {β : Type} [Inhabited β] (dims : List Dimension) (md : Metadata)
    (sig : List StackTy) (mapped : List (Key × List β))
    (hnd : (mapped.map Prod.fst).Nodup)
    (hlen : ∀ p ∈ mapped, p.2.length = sig.length) :
    fillStacks (sig.map (fun tp =>
        ({ stype := tp, dimensions := dims, metadata := md, entries := [] } : OutStack β)))
      mapped = .ok (specOutputStacks dims md sig mapped) := by
  rw [fillStacks_spec mapped _ hnd
    (by
      intro n s hs p hp
      rw [List.getElem?_map] at hs
      cases ht : sig[n]? with
      | none => rw [ht] at hs; cases hs
      | some tp =>
        rw [ht] at hs
        have : ({ stype := tp, dimensions := dims, metadata := md, entries := [] } : OutStack β)
            = s := by simpa using hs
        rw [← this]
        simp)
    (by
      intro p hp
      rw [List.length_map]
      exact hlen p hp)]
  refine congrArg Except.ok (List.ext_get? (fun n => ?_))
  rw [List.get?_eq_getElem?, List.get?_eq_getElem?]
  unfold specOutputStacks
  simp only [List.getElem?_map, List.getElem?_enum]
  cases ht : sig[n]? with
  | none => rfl
  | some tp => rfl

/-- C1 counterexample.  Calling a perfectly well-behaved per-layer
operation on an empty stack does not return an empty output stack: the
signature loop never runs, leaves the signature `None`, and the stack
construction then fails, so the call raises instead of returning. -/
theorem viewOpCall_empty_stack_fails :
    viewOpCallStack (fun c : ViewCat => c) (fun _ : ℚ => .ok [ViewCat.sheetLayer])
      { entries := [], dimensions := [], metadata := [] } =
      .error "TypeError: NoneType object is not iterable" := rfl

/-- C1 as amended.  For every per-layer operation applied to a
*nonempty* stack whose per-entry processing succeeds on every entry
with one common container-category signature, the call returns one
fresh output stack per output position — returned directly when there
is exactly one position, as a grid layout otherwise — each output stack
of the inferred container type, carrying the input stack's dimension
list and metadata, and containing exactly one entry per input entry,
the entry's `i`-th produced view inserted at the entry's own key, in
key order (`specOutputStacks`). -/
theorem viewOpCall_stack_spec {α β : Type} [Inhabited β] (cat : β → ViewCat)
    (process : α → Except String (List β)) (stack : InStack α)
    (sig : List StackTy) (f : Key → List β)
    (hne : stack.entries ≠ [])
    (hnd : (stack.entries.map Prod.fst).Nodup)
    (hf : ∀ kv ∈ stack.entries, process kv.2 = .ok (f kv.1))
    (hsig : ∀ kv ∈ stack.entries, viewSig cat (f kv.1) = .ok sig) :
    viewOpCallStack cat process stack =
      .ok (match specOutputStacks stack.dimensions stack.metadata sig
              (stack.entries.map (fun kv => (kv.1, f kv.1))) with
           | [s] => CallResult.single s
           | ss => CallResult.grid ss) := by
  have hmap : getSignature cat
      ((stack.entries.map (fun kv => (kv.1, f kv.1))).map (fun q => q.2)) = .ok (some sig) := by
    apply getSignature_all_ok
    · simp [hne]
    · intro vs hvs
      rcases List.mem_map.mp hvs with ⟨q, hq, rfl⟩
      rcases List.mem_map.mp hq with ⟨kv, hkv, rfl⟩
      exact hsig kv hkv
  have hfill := fillStacks_init (β := β) stack.dimensions stack.metadata sig
      (stack.entries.map (fun kv => (kv.1, f kv.1)))
      (by simpa using hnd)
      (by
        intro p hp
        rcases List.mem_map.mp hp with ⟨kv, hkv, rfl⟩
        exact viewSig_length (hsig kv hkv))
  simp only [viewOpCallStack, processEntries_ok hf, hmap, hfill]
  generalize specOutputStacks stack.dimensions stack.metadata sig
    (stack.entries.map (fun kv => (kv.1, f kv.1))) = S
  cases S with
  | nil => rfl
  | cons a t => cases t <;> rfl

/-- C1 witness: a two-entry stack under an operation producing one
sheet-category view per entry yields a single fresh sheet stack with
both entries at their own keys. -/
theorem viewOpCall_stack_spec_witness :
    viewOpCallStack (fun c : ViewCat => c) (fun _ : ℚ => .ok [ViewCat.sheetLayer])
      { entries := [([0], 5), ([1], 7)],
        dimensions := [⟨"time", false, (0, 1)⟩], metadata := [] } =
      .ok (.single { stype := .sheetStack, dimensions := [⟨"time", false, (0, 1)⟩],
                     metadata := [],
                     entries := [([0], .sheetLayer), ([1], .sheetLayer)] }) :=
  viewOpCall_stack_spec (fun c : ViewCat => c) (fun _ : ℚ => .ok [ViewCat.sheetLayer])
    { entries := [([0], 5), ([1], 7)], dimensions := [⟨"time", false, (0, 1)⟩], metadata := [] }
    [.sheetStack] (fun _ => [.sheetLayer])
    (by decide) (by decide) (fun kv _ => rfl) (fun kv _ => rfl)

/-- C2.  If every entry of a stack produces its output list but two
entries' container-category signatures differ (in length or in any
position), the stack-level call fails: it returns an error and no
output stack. -/
theorem viewOpCall_inconsistent_signature_fails {α β : Type} (cat : β → ViewCat)
    (process : α → Except String (List β)) (stack : InStack α)
    (f : Key → List β) (sigf : Key → List StackTy)
    (hf : ∀ kv ∈ stack.entries, process kv.2 = .ok (f kv.1))
    (hs : ∀ kv ∈ stack.entries, viewSig cat (f kv.1) = .ok (sigf kv.1))
    (kv1 kv2 : Key × α) (h1 : kv1 ∈ stack.entries) (h2 : kv2 ∈ stack.entries)
    (hne : sigf kv1.1 ≠ sigf kv2.1) :
    ∃ e, viewOpCallStack cat process stack = .error e := by
  cases hcall : viewOpCallStack cat process stack with
  | error e => exact ⟨e, rfl⟩
  | ok r =>
    exfalso
    rw [viewOpCallStack] at hcall
    simp only [processEntries_ok hf] at hcall
    cases hL : List.map (fun q => q.2) (List.map (fun kv => (kv.1, f kv.1)) stack.entries) with
    | nil =>
      have hentries : stack.entries = [] := by simpa using hL
      rw [hentries] at h1
      cases h1
    | cons x L =>
      rw [hL] at hcall
      cases hg : getSignature cat (x :: L) with
      | error e => simp [hg] at hcall
      | ok osig =>
        rcases getSignature_cons_all hg with ⟨s, hxs, hall⟩
        have hmem : ∀ kv ∈ stack.entries, f kv.1 ∈ x :: L := by
          intro kv hkv
          rw [← hL]
          exact List.mem_map_of_mem _ (List.mem_map_of_mem _ hkv)
        have hsig_all : ∀ kv ∈ stack.entries, viewSig cat (f kv.1) = .ok s := by
          intro kv hkv
          rcases List.mem_cons.mp (hmem kv hkv) with hx | hmemL
          · rw [hx]; exact hxs
          · exact hall _ hmemL
        have e1 : sigf kv1.1 = s := by
          have := hs kv1 h1
          rw [hsig_all kv1 h1] at this
          exact (Except.ok.injEq _ _ ▸ this).symm
        have e2 : sigf kv2.1 = s := by
          have := hs kv2 h2
          rw [hsig_all kv2 h2] at this
          exact (Except.ok.injEq _ _ ▸ this).symm
        exact hne (e1.trans e2.symm)

/-- C2 witness: two entries producing a sheet-category view and a
table-category view respectively make the call fail. -/
theorem viewOpCall_inconsistent_signature_fails_witness :
    ∃ e, viewOpCallStack (fun c : ViewCat => c)
      (fun q : ℚ => .ok (if q = 5 then [ViewCat.sheetLayer] else [ViewCat.tableCat]))
      { entries := [([0], 5), ([1], 7)],
        dimensions := [⟨"time", false, (0, 1)⟩], metadata := [] } = .error e :=
  viewOpCall_inconsistent_signature_fails (fun c : ViewCat => c)
    (fun q : ℚ => .ok (if q = 5 then [ViewCat.sheetLayer] else [ViewCat.tableCat]))
    { entries := [([0], 5), ([1], 7)], dimensions := [⟨"time", false, (0, 1)⟩], metadata := [] }
    (fun k => if k = [0] then [ViewCat.sheetLayer] else [ViewCat.tableCat])
    (fun k => if k = [0] then [StackTy.sheetStack] else [StackTy.tableStack])
    (by decide) (by decide)
    ([0], 5) ([1], 7) (by decide) (by decide) (by decide)

/-- C4 witness: a concrete 1 by 2 RGB view with values in `{0,1}`. -/
theorem split_rgba_roundtrip_witness :
    ∃ views out,
      splitProcess { data := .d3 [[[1, 0, 1], [0, 1, 0]]], bounds := ⟨0, 0, 1, 1⟩,
                     label := "X", mode := .rgb } = .ok views ∧
      views.map (fun v => v.label) = ["R Channel", "G Channel", "B Channel"] ∧
      rgbaProcess { data := views, bounds := ⟨0, 0, 1, 1⟩, roi_bounds := none } =
        .ok ([out], []) ∧
      out.data = .d3 [[[1, 0, 1], [0, 1, 0]]] :=
  split_rgba_roundtrip
    { data := .d3 [[[1, 0, 1], [0, 1, 0]]], bounds := ⟨0, 0, 1, 1⟩, label := "X", mode := .rgb }
    [[[1, 0, 1], [0, 1, 0]]] rfl rfl (by decide) (by decide) (by decide)

/-! ## Claim C6: duplicated x-axis in the group-by list -/

/-- C6.  Whenever the chosen x-axis name also appears in the group-by
list, `curve_collapse` fails: whatever the stack's contents, the call
returns an error and never a collapsed result — the duplicate check
sits before the axis split and the curve generation, and every earlier
stage can only fail, not skip it. -/
theorem curveCollapse_xaxis_in_groupby_fails (stackTy : StackTy) (stack : InStack Table)
    (p : CollapseParams) (x : String) (hx : p.x_axis = some x) (hmem : x ∈ p.group_by) :
    ∃ e, curveCollapseCall stackTy stack p = .error e := by
  have hdup : (x :: p.group_by).length ≠ (firstDedup (x :: p.group_by)).length := by
    intro h
    have := firstDedup_dup_length_lt (x := x) (l := p.group_by) hmem
    omega
  cases hres : curveCollapseCall stackTy stack p with
  | error e => exact ⟨e, rfl⟩
  | ok r =>
    exfalso
    rw [curveCollapseCall] at hres
    cases hp : curveCollapseProcess stackTy stack p with
    | error e => simp [hp] at hres
    | ok dvs =>
      rw [curveCollapseProcess] at hp
      cases hsam : viewOpCallStack (fun (_ : Table) => ViewCat.tableCat)
          (fun t => sampleProcess p.samples (.tableIn t)) stack with
      | error e => simp [hsam] at hp
      | ok cr =>
        cases cr with
        | grid ss => simp [hsam] at hp
        | single sampled =>
          simp only [hsam] at hp
          cases hchk : checkTableStack p sampled with
          | error e => simp [hchk] at hp
          | ok u =>
            simp only [hchk, hx] at hp
            cases hdim : dimDictE sampled x with
            | error e => simp [hdim] at hp
            | ok xd =>
              simp only [hdim] at hp
              rw [if_pos hdup] at hp
              cases hp

/-- C6 witness: a concrete two-dimensional table stack with
`x_axis = "trial"` also listed in `group_by`. -/
theorem curveCollapse_xaxis_in_groupby_fails_witness :
    ∃ e, curveCollapseCall .tableStack
      { entries := [([0, 0], { data := [("temp", 1)], label := "t" })],
        dimensions := [⟨"time", false, (0, 1)⟩, ⟨"trial", false, (0, 1)⟩], metadata := [] }
      { x_axis := some "trial", group_by := ["trial"], samples := ["temp"] } = .error e :=
  curveCollapse_xaxis_in_groupby_fails .tableStack
    { entries := [([0, 0], { data := [("temp", 1)], label := "t" })],
      dimensions := [⟨"time", false, (0, 1)⟩, ⟨"trial", false, (0, 1)⟩], metadata := [] }
    { x_axis := some "trial", group_by := ["trial"], samples := ["temp"] }
    "trial" rfl (by decide)

/-! ## Claim C7: sparse stacks in the axis split -/

theorem samplePoints_map_fst {sample : String} :
    ∀ {m : List (ℚ × Table)} {pts : List (ℚ × ℚ)},
    samplePoints sample m = .ok pts → pts.map Prod.fst = m.map Prod.fst := by
  intro m
  induction m with
  | nil =>
    intro pts h
    simp only [samplePoints, Except.ok.injEq] at h
    rw [← h]
    rfl
  | cons xt rest ih =>
    intro pts h
    simp only [samplePoints] at h
    cases ht : tableGet xt.2 sample with
    | error e => simp [ht] at h
    | ok v =>
      simp only [ht] at h
      cases hr : samplePoints sample rest with
      | error e => simp [hr] at h
      | ok others =>
        simp only [hr, Except.ok.injEq] at h
        rw [← h]
        simp [ih hr]

/-- C7.  During axis splitting, a shortened key and an observed x-axis
value whose expanded key is absent from the stack contribute nothing:
the split mapping for that shortened key exists, every pair it does hold
comes from a present expanded key, the absent x value does not appear,
the mapping is strictly shorter than the full x-value list, and the
curve points later generated from it (`sampled_curve_data`) carry
exactly the present x values — no error, no interpolation, no default
value. -/
theorem splitAxis_absent_key_omitted (entries : List (Key × Table)) (xn : ℕ) (k : Key) (x : ℚ)
    (hk : k ∈ shortKeys entries xn) (hx : x ∈ xAxisVals entries xn)
    (habs : expandKey k xn x ∉ entries.map Prod.fst) :
    ∃ m, assocLookup (splitAxis entries xn) k = some m ∧
      (∀ q ∈ m, assocLookup entries (expandKey k xn q.1) = some q.2) ∧
      x ∉ m.map Prod.fst ∧
      m.length < (xAxisVals entries xn).length ∧
      (∀ sample pts, samplePoints sample m = .ok pts →
        pts.length = m.length ∧ x ∉ pts.map Prod.fst) := by
  have hgx : (assocLookup entries (expandKey k xn x)).map (fun t => (x, t)) = none := by
    rw [assocLookup_eq_none.mpr habs]
    rfl
  refine ⟨_, assocLookup_of_map (firstDedup_nodup _) hk, ?_, ?_, ?_, ?_⟩
  · intro q hq
    rcases List.mem_filterMap.mp hq with ⟨x2, hx2, hgq⟩
    cases hlook : assocLookup entries (expandKey k xn x2) with
    | none => rw [hlook] at hgq; cases hgq
    | some t =>
      rw [hlook] at hgq
      simp only [Option.map_some', Option.some.injEq] at hgq
      rw [← hgq]
      exact hlook
  · intro hxmem
    rcases List.mem_map.mp hxmem with ⟨q, hq, hqx⟩
    rcases List.mem_filterMap.mp hq with ⟨x2, hx2, hgq⟩
    cases hlook : assocLookup entries (expandKey k xn x2) with
    | none => rw [hlook] at hgq; cases hgq
    | some t =>
      rw [hlook] at hgq
      simp only [Option.map_some', Option.some.injEq] at hgq
      rw [← hgq] at hqx
      simp only at hqx
      rw [hqx] at hlook
      rw [assocLookup_eq_none.mpr habs] at hlook
      cases hlook
  · exact filterMap_length_lt hx hgx
  · intro sample pts hpts
    have hfst := samplePoints_map_fst hpts
    constructor
    · have := congrArg List.length hfst
      simpa using this
    · rw [hfst]
      intro hxmem
      rcases List.mem_map.mp hxmem with ⟨q, hq, hqx⟩
      rcases List.mem_filterMap.mp hq with ⟨x2, hx2, hgq⟩
      cases hlook : assocLookup entries (expandKey k xn x2) with
      | none => rw [hlook] at hgq; cases hgq
      | some t =>
        rw [hlook] at hgq
        simp only [Option.map_some', Option.some.injEq] at hgq
        rw [← hgq] at hqx
        simp only at hqx
        rw [hqx] at hlook
        rw [assocLookup_eq_none.mpr habs] at hlook
        cases hlook

/-- C7 witness: the stack keyed by `(time, trial)` holding
`(0,0), (1,0), (0,1)` but not `(1,1)`: for shortened key `[1]` the x
value `1` is simply missing and the curve has one point instead of
two. -/
theorem splitAxis_absent_key_omitted_witness :
    ∃ m, assocLookup (splitAxis
        [([0, 0], ({ data := [("temp", 1)], label := "t" } : Table)),
         ([1, 0], ({ data := [("temp", 3)], label := "t" } : Table)),
         ([0, 1], ({ data := [("temp", 5)], label := "t" } : Table))] 0) [1] = some m ∧
      (∀ q ∈ m, assocLookup
        [([0, 0], ({ data := [("temp", 1)], label := "t" } : Table)),
         ([1, 0], ({ data := [("temp", 3)], label := "t" } : Table)),
         ([0, 1], ({ data := [("temp", 5)], label := "t" } : Table))]
        (expandKey [1] 0 q.1) = some q.2) ∧
      (1 : ℚ) ∉ m.map Prod.fst ∧
      m.length < (xAxisVals
        [([0, 0], ({ data := [("temp", 1)], label := "t" } : Table)),
         ([1, 0], ({ data := [("temp", 3)], label := "t" } : Table)),
         ([0, 1], ({ data := [("temp", 5)], label := "t" } : Table))] 0).length ∧
      (∀ sample pts, samplePoints sample m = .ok pts →
        pts.length = m.length ∧ (1 : ℚ) ∉ pts.map Prod.fst) :=
  splitAxis_absent_key_omitted
    [([0, 0], ({ data := [("temp", 1)], label := "t" } : Table)),
     ([1, 0], ({ data := [("temp", 3)], label := "t" } : Table)),
     ([0, 1], ({ data := [("temp", 5)], label := "t" } : Table))]
    0 [1] 1 (by decide) (by decide) (by decide)

end DataViews
